import Mathlib

/-!
Verification of `example/simple/monitor_serial.py` (ESP32-MB8ART repository).

The script opens a serial port, busy-polls it for 15 seconds of wall-clock
time, reads available lines, prints each one (UTF-8 decoded and
right-stripped, or as raw bytes when decoding fails), and closes the port in
a `finally` block on every exit path.

The embedding models the script as a deterministic interpreter over an
environment: the result of the `serial.Serial` open call, the loop start
time, and a trace of loop iterations.  Each iteration records the wall-clock
time at which the `while` condition is evaluated and what the serial device
does in the body (`in_waiting == 0`, a line returned by `readline`, a
`serial.SerialException`, a `KeyboardInterrupt`, or any other exception).
Printing is modelled by an algebraic `Out` type, one constructor per `print`
statement of the script, carrying the dynamic data of the corresponding
f-string; `renderOut` gives the exact printed text.
-/

namespace MonitorSerial

/-- `port = '/dev/ttyACM0'` (line 7 of the script). -/
def port : String := "/dev/ttyACM0"

/-- `baudrate = 115200` (line 8). -/
def baudrate : Nat := 115200

/-- `timeout=1` passed to `serial.Serial` (line 12): the read timeout, seconds. -/
def readTimeout : Int := 1

/-- The hardcoded `15` of `while time.time() - start_time < 15` (line 19). -/
def durationSeconds : Int := 15

/-- A byte is a UTF-8 continuation byte: `0x80 ≤ b < 0xC0`. -/
def contOK (b : Nat) : Bool := 0x80 ≤ b && b < 0xC0

/-- Strict UTF-8 decoding of a byte list into a list of Unicode code points,
as performed by CPython `bytes.decode('utf-8')` with default `errors='strict'`:
rejects overlong forms, surrogate code points and code points above
`0x10FFFF`; `none` models a raised `UnicodeDecodeError`. -/
def utf8Decode : List Nat → Option (List Nat)
  | [] => some []
  | b0 :: rest =>
    if b0 < 0x80 then
      (utf8Decode rest).map (fun cps => b0 :: cps)
    else if 0xC2 ≤ b0 && b0 ≤ 0xDF then
      match rest with
      | b1 :: r =>
        if contOK b1 then
          (utf8Decode r).map (fun cps => ((b0 - 0xC0) * 0x40 + (b1 - 0x80)) :: cps)
        else none
      | [] => none
    else if 0xE0 ≤ b0 && b0 ≤ 0xEF then
      match rest with
      | b1 :: b2 :: r =>
        if contOK b1 && contOK b2 then
          let cp := (b0 - 0xE0) * 0x1000 + (b1 - 0x80) * 0x40 + (b2 - 0x80)
          if cp < 0x800 then none
          else if 0xD800 ≤ cp && cp ≤ 0xDFFF then none
          else (utf8Decode r).map (fun cps => cp :: cps)
        else none
      | _ => none
    else if 0xF0 ≤ b0 && b0 ≤ 0xF4 then
      match rest with
      | b1 :: b2 :: b3 :: r =>
        if contOK b1 && contOK b2 && contOK b3 then
          let cp := (b0 - 0xF0) * 0x40000 + (b1 - 0x80) * 0x1000
                      + (b2 - 0x80) * 0x40 + (b3 - 0x80)
          if cp < 0x10000 then none
          else if 0x10FFFF < cp then none
          else (utf8Decode r).map (fun cps => cp :: cps)
        else none
      | _ => none
    else none

/-- The set of code points stripped by Python `str.rstrip()` with no
argument: exactly the characters for which CPython `str.isspace()` holds. -/
def pyIsSpace (c : Nat) : Bool :=
  (9 ≤ c && c ≤ 13) || (28 ≤ c && c ≤ 31) || c == 32 || c == 0x85 || c == 0xA0 ||
  c == 0x1680 || (0x2000 ≤ c && c ≤ 0x200A) || c == 0x2028 || c == 0x2029 ||
  c == 0x202F || c == 0x205F || c == 0x3000

/-- Python `str.rstrip()`: remove all trailing whitespace code points. -/
def pyRstrip (cps : List Nat) : List Nat :=
  ((cps.reverse.dropWhile pyIsSpace)).reverse

/-- What the serial device does in one iteration of the polling loop. -/
inductive Event
  /-- `ser.in_waiting > 0` and `ser.readline()` returns `data`. -/
  | recv (data : List Nat)
  /-- `ser.in_waiting == 0`: the body is skipped. -/
  | noData
  /-- `serial.SerialException` raised by `ser.in_waiting` or `ser.readline()`. -/
  | serialExc (msg : String)
  /-- `KeyboardInterrupt` delivered during the iteration. -/
  | keyboardInterrupt
  /-- any other exception raised inside the loop body (uncaught by the script). -/
  | otherExc
  deriving DecidableEq

/-- One modelled `print` of the script, carrying its dynamic data. -/
inductive Out
  /-- line 13: `print(f"Connected to {port} at {baudrate} baud")`. -/
  | connected (p : String) (b : Nat)
  /-- line 14: `print("Monitoring serial output (Ctrl+C to stop)...")`. -/
  | monitoring
  /-- line 15: `print("-" * 50)`. -/
  | separator
  /-- line 25: `print(text)` where `text = data.decode('utf-8').rstrip()`. -/
  | text (cps : List Nat)
  /-- line 28: `print(f"Raw bytes: {data}")`. -/
  | rawBytes (data : List Nat)
  /-- line 31: `print(f"Error opening serial port: {e}")`. -/
  | errorOpening (msg : String)
  /-- line 33: `print("\nStopped by user")`. -/
  | stoppedByUser
  /-- line 37: `print("Serial port closed")`. -/
  | serialClosed
  deriving DecidableEq

/-- A hexadecimal digit character, as in CPython `bytes.__repr__`. -/
def hexDigit (n : Nat) : Char :=
  if n < 10 then Char.ofNat (48 + n) else Char.ofNat (87 + n)

/-- Escape of one byte inside CPython `repr(bytes)` with quote `q`. -/
def byteEscape (q : Char) (b : Nat) : List Char :=
  if b == 92 then [Char.ofNat 92, Char.ofNat 92]
  else if b == q.toNat then [Char.ofNat 92, q]
  else if b == 9 then [Char.ofNat 92, Char.ofNat 116]
  else if b == 10 then [Char.ofNat 92, Char.ofNat 110]
  else if b == 13 then [Char.ofNat 92, Char.ofNat 114]
  else if 32 ≤ b && b < 127 then [Char.ofNat b]
  else [Char.ofNat 92, Char.ofNat 120, hexDigit (b / 16), hexDigit (b % 16)]

/-- CPython `repr` of a `bytes` object, as interpolated by `f"Raw bytes: {data}"`:
`b'...'`, using double quotes only when the bytes contain `'` but not `"`. -/
def pyBytesRepr (bs : List Nat) : String :=
  let q : Char := if bs.contains 39 && !bs.contains 34 then Char.ofNat 34 else Char.ofNat 39
  String.mk (Char.ofNat 98 :: q :: ((bs.map (byteEscape q)).flatten ++ [q]))

/-- A list of Unicode code points rendered as a string. -/
def cpsToString (cps : List Nat) : String := String.mk (cps.map Char.ofNat)

/-- The exact text printed for each `Out` event. -/
def renderOut : Out → String
  | .connected p b => "Connected to " ++ p ++ " at " ++ toString b ++ " baud"
  | .monitoring => "Monitoring serial output (Ctrl+C to stop)..."
  | .separator => String.mk (List.replicate 50 (Char.ofNat 45))
  | .text cps => cpsToString cps
  | .rawBytes data => "Raw bytes: " ++ pyBytesRepr data
  | .errorOpening msg => "Error opening serial port: " ++ msg
  | .stoppedByUser => "\nStopped by user"
  | .serialClosed => "Serial port closed"

/-- Lines 22-28 of the script: decode the line read by `readline` as UTF-8 and
print it right-stripped; on `UnicodeDecodeError` print the raw bytes instead. -/
def processLine (data : List Nat) : Out :=
  match utf8Decode data with
  | some cps => .text (pyRstrip cps)
  | none => .rawBytes data

/-- How the polling loop (lines 19-28) was left. -/
inductive ExitKind
  /-- the `while` condition became false: elapsed time reached the duration. -/
  | normal
  /-- a `KeyboardInterrupt` aborted the loop. -/
  | interrupted
  /-- a `serial.SerialException` aborted the loop. -/
  | serialError (msg : String)
  /-- some other exception aborted the loop (not caught by the script). -/
  | uncaught
  deriving DecidableEq

/-- The polling loop, lines 19-28:
`while time.time() - start_time < 15:` — each trace entry gives the value of
`time.time()` at the condition check and the device event of the body.
Returns the prints emitted by the body together with how the loop was left;
`none` when the trace ends before the loop does (an incomplete trace). -/
def pollLoop (startTime dur : Int) : List (Int × Event) → Option (List Out × ExitKind)
  | [] => none
  | (t, ev) :: rest =>
    if t - startTime < dur then
      match ev with
      | .noData => pollLoop startTime dur rest
      | .recv data => (pollLoop startTime dur rest).map
          (fun r => (processLine data :: r.1, r.2))
      | .serialExc m => some ([], .serialError m)
      | .keyboardInterrupt => some ([], .interrupted)
      | .otherExc => some ([], .uncaught)
    else some ([], .normal)

/-- The lines actually read by `ser.readline()` during the loop, in order. -/
def processedLines (startTime dur : Int) : List (Int × Event) → List (List Nat)
  | [] => []
  | (t, ev) :: rest =>
    if t - startTime < dur then
      match ev with
      | .recv data => data :: processedLines startTime dur rest
      | .noData => processedLines startTime dur rest
      | .serialExc _ => []
      | .keyboardInterrupt => []
      | .otherExc => []
    else []

/-- The wall-clock times at which the `while` condition is evaluated before
the loop is left (the exiting check included). -/
def reachedChecks (startTime dur : Int) : List (Int × Event) → List Int
  | [] => []
  | (t, ev) :: rest =>
    t :: (if t - startTime < dur then
            match ev with
            | .recv _ => reachedChecks startTime dur rest
            | .noData => reachedChecks startTime dur rest
            | .serialExc _ => []
            | .keyboardInterrupt => []
            | .otherExc => []
          else [])

/-- Timing model of the busy-poll: consecutive condition checks are separated
by at most one `readline` (which blocks at most `timeout`) when the iteration
read a line, and by no blocking operation at all otherwise. -/
def spacingOK (timeout : Int) : List (Int × Event) → Bool
  | [] => true
  | [_] => true
  | (t, ev) :: (t', ev') :: rest =>
    (decide (t' ≤ t + match ev with | .recv _ => timeout | _ => 0))
      && spacingOK timeout ((t', ev') :: rest)

/-- The environment a run of the script executes against. -/
structure Env where
  /-- result of `serial.Serial(port, baudrate, timeout=1)`:
  `.error msg` models a raised `serial.SerialException`. -/
  openResult : Except String Unit
  /-- `start_time = time.time()` (line 18). -/
  startTime : Int
  /-- the loop iterations offered by the device. -/
  trace : List (Int × Event)

/-- Observable outcome of one run of the script. -/
structure RunResult where
  /-- everything printed, in order. -/
  outputs : List Out
  /-- how many times `ser.close()` was called. -/
  closeCount : Nat
  deriving DecidableEq

/-- The three prints of lines 13-15, emitted right after a successful open. -/
def headerOuts : List Out := [.connected port baudrate, .monitoring, .separator]

/-- What the `except` handlers (lines 30-33) print for each way out of the
loop: nothing on normal exit, `"\nStopped by user"` on `KeyboardInterrupt`,
`"Error opening serial port: {e}"` on `serial.SerialException`, and nothing
for an exception the script does not catch. -/
def exitOuts : ExitKind → List Out
  | .normal => []
  | .interrupted => [.stoppedByUser]
  | .serialError m => [.errorOpening m]
  | .uncaught => []

/-- The whole script, lines 10-37.  On open failure the `serial.SerialException`
handler prints the error and the `finally` guard `'ser' in locals() and
ser.is_open` is false, so no close happens.  On open success the loop runs;
whatever way it is left, the `finally` block finds the port open, closes it
once and prints the confirmation. -/
def runScript (env : Env) : Option RunResult :=
  match env.openResult with
  | .error e => some { outputs := [.errorOpening e], closeCount := 0 }
  | .ok _ =>
    match pollLoop env.startTime durationSeconds env.trace with
    | none => none
    | some (louts, ek) =>
      some { outputs := headerOuts ++ louts ++ exitOuts ek ++ [.serialClosed]
             closeCount := 1 }

/-- The lines read from the serial connection during a run: none when the
open failed (the loop is never entered), the processed trace lines otherwise. -/
def linesRead (env : Env) : List (List Nat) :=
  match env.openResult with
  | .error _ => []
  | .ok _ => processedLines env.startTime durationSeconds env.trace

/-- The first condition check of the trace happens no later than `b`. -/
def headLE (b : Int) : List (Int × Event) → Bool
  | [] => true
  | (t, _) :: _ => decide (t ≤ b)

/-! ### Unfolding lemmas for the interpreter -/

lemma pollLoop_exit (s d t : Int) (ev : Event) (r : List (Int × Event)) (h : d ≤ t - s) :
    pollLoop s d ((t, ev) :: r) = some ([], ExitKind.normal) := by
  have h' : ¬ (t - s < d) := not_lt.mpr h
  simp [pollLoop, h']

lemma pollLoop_noData (s d t : Int) (r : List (Int × Event)) (h : t - s < d) :
    pollLoop s d ((t, Event.noData) :: r) = pollLoop s d r := by
  simp [pollLoop, h]

lemma pollLoop_recv (s d t : Int) (data : List Nat) (r : List (Int × Event))
    (h : t - s < d) :
    pollLoop s d ((t, Event.recv data) :: r)
      = (pollLoop s d r).map (fun p => (processLine data :: p.1, p.2)) := by
  simp [pollLoop, h]

lemma pollLoop_serialExc (s d t : Int) (m : String) (r : List (Int × Event))
    (h : t - s < d) :
    pollLoop s d ((t, Event.serialExc m) :: r) = some ([], ExitKind.serialError m) := by
  simp [pollLoop, h]

lemma pollLoop_interrupt (s d t : Int) (r : List (Int × Event)) (h : t - s < d) :
    pollLoop s d ((t, Event.keyboardInterrupt) :: r)
      = some ([], ExitKind.interrupted) := by
  simp [pollLoop, h]

lemma pollLoop_otherExc (s d t : Int) (r : List (Int × Event)) (h : t - s < d) :
    pollLoop s d ((t, Event.otherExc) :: r) = some ([], ExitKind.uncaught) := by
  simp [pollLoop, h]

lemma runScript_ok (env : Env) (louts : List Out) (ek : ExitKind)
    (hopen : env.openResult = Except.ok ())
    (hpl : pollLoop env.startTime durationSeconds env.trace = some (louts, ek)) :
    runScript env
      = some { outputs := headerOuts ++ louts ++ exitOuts ek ++ [Out.serialClosed]
               closeCount := 1 } := by
  simp [runScript, hopen, hpl]

lemma linesRead_ok (env : Env) (hopen : env.openResult = Except.ok ()) :
    linesRead env = processedLines env.startTime durationSeconds env.trace := by
  simp [linesRead, hopen]

/-- The prints emitted by the loop body are exactly the lines read, in trace
order, each put through the decode-or-raw transformation. -/
lemma pollLoop_outputs_eq (s d : Int) :
    ∀ (tr : List (Int × Event)) (louts : List Out) (ek : ExitKind),
      pollLoop s d tr = some (louts, ek) →
      louts = (processedLines s d tr).map processLine := by
  intro tr
  induction tr with
  | nil => intro louts ek h; simp [pollLoop] at h
  | cons hd tl ih =>
    obtain ⟨t, ev⟩ := hd
    intro louts ek h
    by_cases hc : t - s < d
    · cases ev with
      | noData =>
        rw [pollLoop_noData s d t tl hc] at h
        simpa [processedLines, hc] using ih louts ek h
      | recv data =>
        rw [pollLoop_recv s d t data tl hc] at h
        cases hpl : pollLoop s d tl with
        | none => rw [hpl] at h; simp at h
        | some pr =>
          rw [hpl] at h
          simp only [Option.map_some', Option.some.injEq] at h
          have h1 : louts = processLine data :: pr.1 := by
            have := congrArg Prod.fst h.symm
            simpa using this
          have h2 := ih pr.1 pr.2 (by rw [hpl])
          simp [processedLines, hc, h1, h2]
      | serialExc m =>
        rw [pollLoop_serialExc s d t m tl hc] at h
        simp only [Option.some.injEq] at h
        have h1 : louts = [] := by
          have := congrArg Prod.fst h.symm
          simpa using this
        simp [processedLines, hc, h1]
      | keyboardInterrupt =>
        rw [pollLoop_interrupt s d t tl hc] at h
        simp only [Option.some.injEq] at h
        have h1 : louts = [] := by
          have := congrArg Prod.fst h.symm
          simpa using this
        simp [processedLines, hc, h1]
      | otherExc =>
        rw [pollLoop_otherExc s d t tl hc] at h
        simp only [Option.some.injEq] at h
        have h1 : louts = [] := by
          have := congrArg Prod.fst h.symm
          simpa using this
        simp [processedLines, hc, h1]
    · rw [pollLoop_exit s d t ev tl (not_lt.mp hc)] at h
      simp only [Option.some.injEq] at h
      have h1 : louts = [] := by
        have := congrArg Prod.fst h.symm
        simpa using this
      simp [processedLines, hc, h1]

/-- Every condition check of the loop happens at a time no later than the
head check plus the duration plus one read timeout. -/
lemma reachedChecks_bound (start dur timeout : Int) (ht : 0 ≤ timeout) :
    ∀ (trace : List (Int × Event)),
      spacingOK timeout trace = true →
      headLE (start + dur + timeout) trace = true →
      ∀ x ∈ reachedChecks start dur trace, x ≤ start + dur + timeout := by
  intro trace
  induction trace with
  | nil => intro _ _ x hx; simp [reachedChecks] at hx
  | cons hd tl ih =>
    obtain ⟨t, ev⟩ := hd
    intro hsp hhd x hx
    have htle : t ≤ start + dur + timeout := by
      simpa [headLE] using hhd
    by_cases hc : t - start < dur
    · have hdelta : ∀ t2 ev2 r2, tl = (t2, ev2) :: r2 →
          t2 ≤ start + dur + timeout ∧ spacingOK timeout tl = true := by
        intro t2 ev2 r2 heq
        subst heq
        simp only [spacingOK, Bool.and_eq_true, decide_eq_true_eq] at hsp
        refine ⟨?_, hsp.2⟩
        have hstep : t2 ≤ t + timeout := by
          rcases hsp with ⟨h1, _⟩
          cases ev <;> simp_all <;> omega
        omega
      have htl : headLE (start + dur + timeout) tl = true ∧
          spacingOK timeout tl = true := by
        cases tl with
        | nil => simp [headLE, spacingOK]
        | cons hd2 r2 =>
          obtain ⟨t2, ev2⟩ := hd2
          obtain ⟨hb, hs⟩ := hdelta t2 ev2 r2 rfl
          exact ⟨by simpa [headLE] using hb, hs⟩
      cases ev with
      | recv data =>
        simp only [reachedChecks, hc, if_true, List.mem_cons] at hx
        rcases hx with rfl | hx'
        · exact htle
        · exact ih htl.2 htl.1 x hx'
      | noData =>
        simp only [reachedChecks, hc, if_true, List.mem_cons] at hx
        rcases hx with rfl | hx'
        · exact htle
        · exact ih htl.2 htl.1 x hx'
      | serialExc m =>
        simp only [reachedChecks, hc, if_true, List.mem_cons, List.not_mem_nil,
          or_false] at hx
        subst hx; exact htle
      | keyboardInterrupt =>
        simp only [reachedChecks, hc, if_true, List.mem_cons, List.not_mem_nil,
          or_false] at hx
        subst hx; exact htle
      | otherExc =>
        simp only [reachedChecks, hc, if_true, List.mem_cons, List.not_mem_nil,
          or_false] at hx
        subst hx; exact htle
    · simp only [reachedChecks, hc, if_false, List.mem_cons, List.not_mem_nil,
        or_false] at hx
      subst hx; exact htle

/-- `headLE` is monotone in the bound. -/
lemma headLE_mono (a b : Int) (hab : a ≤ b) (trace : List (Int × Event))
    (h : headLE a trace = true) : headLE b trace = true := by
  cases trace with
  | nil => simp [headLE]
  | cons hd r =>
    obtain ⟨t, ev⟩ := hd
    simp only [headLE, decide_eq_true_eq] at h ⊢
    omega

/-! ### Claims -/

/-- C1: for every line of bytes read from the serial connection that is
valid UTF-8, the printed output equals the UTF-8 decoding of those bytes
with trailing whitespace (the newline included) stripped. -/
theorem valid_utf8_line_printed_rstripped (env : Env) (res : RunResult)
    (bs cps : List Nat)
    (hrun : runScript env = some res)
    (hline : bs ∈ linesRead env)
    (hdec : utf8Decode bs = some cps) :
    Out.text (pyRstrip cps) ∈ res.outputs := by
  cases hopen : env.openResult with
  | error e => simp [linesRead, hopen] at hline
  | ok u =>
    cases u
    rw [linesRead_ok env hopen] at hline
    rw [runScript] at hrun
    rw [hopen] at hrun
    cases hpl : pollLoop env.startTime durationSeconds env.trace with
    | none => rw [hpl] at hrun; simp at hrun
    | some pr =>
      obtain ⟨louts, ek⟩ := pr
      rw [hpl] at hrun
      simp only [Option.some.injEq] at hrun
      have hlouts : louts
          = (processedLines env.startTime durationSeconds env.trace).map processLine :=
        pollLoop_outputs_eq env.startTime durationSeconds env.trace louts ek hpl
      have hmem : processLine bs ∈ louts := by
        rw [hlouts]; exact List.mem_map_of_mem processLine hline
      have hform : processLine bs = Out.text (pyRstrip cps) := by
        simp [processLine, hdec]
      rw [← hrun]
      simp only [List.mem_append]
      exact Or.inl (Or.inl (Or.inr (hform ▸ hmem)))

/-- C1 witness: the line `"hi\t\n"` is printed as `"hi"`. -/
theorem valid_utf8_line_printed_rstripped_witness :
    Out.text (pyRstrip [104, 105, 9, 10]) ∈
      (RunResult.mk (headerOuts ++ [Out.text [104, 105]] ++ [] ++ [Out.serialClosed]) 1).outputs :=
  valid_utf8_line_printed_rstripped
    ⟨Except.ok (), 0, [(0, Event.recv [104, 105, 9, 10]), (20, Event.noData)]⟩
    (RunResult.mk (headerOuts ++ [Out.text [104, 105]] ++ [] ++ [Out.serialClosed]) 1)
    [104, 105, 9, 10] [104, 105, 9, 10] rfl (by decide) rfl

/-- C2: a line that is not valid UTF-8 is printed as its raw bytes (the
`UnicodeDecodeError` is caught locally), and the loop goes on with the rest
of the trace exactly as for any other read: decode failure never terminates
the polling loop. -/
theorem invalid_utf8_line_raw_and_nonfatal (env : Env) (res : RunResult)
    (bs : List Nat)
    (hrun : runScript env = some res)
    (hline : bs ∈ linesRead env)
    (hdec : utf8Decode bs = none) :
    Out.rawBytes bs ∈ res.outputs
    ∧ ∀ (s d t : Int) (rest : List (Int × Event)), t - s < d →
        pollLoop s d ((t, Event.recv bs) :: rest)
          = (pollLoop s d rest).map (fun p => (processLine bs :: p.1, p.2)) := by
  refine ⟨?_, fun s d t rest hlt => pollLoop_recv s d t bs rest hlt⟩
  cases hopen : env.openResult with
  | error e => simp [linesRead, hopen] at hline
  | ok u =>
    cases u
    rw [linesRead_ok env hopen] at hline
    rw [runScript] at hrun
    rw [hopen] at hrun
    cases hpl : pollLoop env.startTime durationSeconds env.trace with
    | none => rw [hpl] at hrun; simp at hrun
    | some pr =>
      obtain ⟨louts, ek⟩ := pr
      rw [hpl] at hrun
      simp only [Option.some.injEq] at hrun
      have hlouts : louts
          = (processedLines env.startTime durationSeconds env.trace).map processLine :=
        pollLoop_outputs_eq env.startTime durationSeconds env.trace louts ek hpl
      have hmem : processLine bs ∈ louts := by
        rw [hlouts]; exact List.mem_map_of_mem processLine hline
      have hform : processLine bs = Out.rawBytes bs := by
        simp [processLine, hdec]
      rw [← hrun]
      simp only [List.mem_append]
      exact Or.inl (Or.inl (Or.inr (hform ▸ hmem)))

/-- C2 witness: the invalid line `b"\xff\xfe\n"` is printed raw, and reading
it leaves the loop processing the rest of the trace. -/
theorem invalid_utf8_line_raw_and_nonfatal_witness :
    Out.rawBytes [255, 254, 10] ∈
      (RunResult.mk
        (headerOuts ++ [Out.rawBytes [255, 254, 10], Out.text [111, 107]]
          ++ [] ++ [Out.serialClosed]) 1).outputs
    ∧ pollLoop 0 15 [(0, Event.recv [255, 254, 10]), (1, Event.recv [111, 107, 10]), (16, Event.noData)]
        = (pollLoop 0 15 [(1, Event.recv [111, 107, 10]), (16, Event.noData)]).map
            (fun p => (processLine [255, 254, 10] :: p.1, p.2)) := by
  have h := invalid_utf8_line_raw_and_nonfatal
    ⟨Except.ok (), 0,
      [(0, Event.recv [255, 254, 10]), (1, Event.recv [111, 107, 10]), (16, Event.noData)]⟩
    (RunResult.mk
      (headerOuts ++ [Out.rawBytes [255, 254, 10], Out.text [111, 107]]
        ++ [] ++ [Out.serialClosed]) 1)
    [255, 254, 10] rfl (by decide) rfl
  exact ⟨h.1, h.2 0 15 0 [(1, Event.recv [111, 107, 10]), (16, Event.noData)] (by decide)⟩

/-- C10: in the raw-bytes fallback branch the printed payload is the
complete, unmodified line as read — trailing newline and trailing whitespace
bytes included — and the rendered text is the tag `"Raw bytes: "` followed by
the Python `repr` of exactly those bytes; no trimming is applied. -/
theorem raw_branch_prints_unmodified_line (data : List Nat)
    (hdec : utf8Decode data = none) :
    processLine data = Out.rawBytes data
    ∧ renderOut (processLine data) = "Raw bytes: " ++ pyBytesRepr data := by
  constructor
  · simp [processLine, hdec]
  · simp [processLine, hdec, renderOut]

/-- C10 witness: `b"\xff \t\n"` is printed raw with its trailing space, tab
and newline bytes intact. -/
theorem raw_branch_prints_unmodified_line_witness :
    processLine [255, 32, 9, 10] = Out.rawBytes [255, 32, 9, 10]
    ∧ renderOut (processLine [255, 32, 9, 10]) = "Raw bytes: " ++ pyBytesRepr [255, 32, 9, 10] :=
  raw_branch_prints_unmodified_line [255, 32, 9, 10] rfl

/-- C3: whenever the open succeeded, every completed run — normal loop
completion, user interruption, a caught serial error, or an exception the
script does not catch — calls `ser.close()` exactly once, and the very last
print is the closed-confirmation message. -/
theorem opened_implies_closed_once_every_exit (env : Env) (res : RunResult)
    (hopen : env.openResult = Except.ok ())
    (hrun : runScript env = some res) :
    res.closeCount = 1 ∧ res.outputs.getLast? = some Out.serialClosed := by
  rw [runScript] at hrun
  rw [hopen] at hrun
  cases hpl : pollLoop env.startTime durationSeconds env.trace with
  | none => rw [hpl] at hrun; simp at hrun
  | some pr =>
    obtain ⟨louts, ek⟩ := pr
    rw [hpl] at hrun
    simp only [Option.some.injEq] at hrun
    constructor
    · rw [← hrun]
    · rw [← hrun]
      show (headerOuts ++ louts ++ exitOuts ek ++ [Out.serialClosed]).getLast? = _
      rw [show headerOuts ++ louts ++ exitOuts ek ++ [Out.serialClosed]
            = (headerOuts ++ louts ++ exitOuts ek) ++ [Out.serialClosed] from by
            simp [List.append_assoc]]
      exact List.getLast?_concat _

/-- C3 witness: a run interrupted by the user still closes the port once and
ends with the closed message. -/
theorem opened_implies_closed_once_every_exit_witness :
    (RunResult.mk (headerOuts ++ [] ++ [Out.stoppedByUser] ++ [Out.serialClosed]) 1).closeCount = 1
    ∧ (RunResult.mk (headerOuts ++ [] ++ [Out.stoppedByUser] ++ [Out.serialClosed]) 1).outputs.getLast?
        = some Out.serialClosed :=
  opened_implies_closed_once_every_exit
    ⟨Except.ok (), 0, [(3, Event.keyboardInterrupt), (4, Event.noData)]⟩
    (RunResult.mk (headerOuts ++ [] ++ [Out.stoppedByUser] ++ [Out.serialClosed]) 1)
    rfl rfl

/-- C4: if `serial.Serial` raises, the error is printed, nothing else
happens — the polling loop is never entered (no line is ever read) and
`ser.close()` is never called. -/
theorem open_failure_reported_no_loop_no_close (env : Env) (msg : String)
    (hopen : env.openResult = Except.error msg) :
    runScript env = some { outputs := [Out.errorOpening msg], closeCount := 0 }
    ∧ linesRead env = [] := by
  constructor
  · rw [runScript]; rw [hopen]
  · rw [linesRead]; rw [hopen]

/-- C4 witness: an open failure with message `"boom"`, with data pending on
the device, still reads nothing and closes nothing. -/
theorem open_failure_reported_no_loop_no_close_witness :
    runScript ⟨Except.error "boom", 0, [(0, Event.recv [104, 10])]⟩
      = some { outputs := [Out.errorOpening "boom"], closeCount := 0 }
    ∧ linesRead ⟨Except.error "boom", 0, [(0, Event.recv [104, 10])]⟩ = [] :=
  open_failure_reported_no_loop_no_close
    ⟨Except.error "boom", 0, [(0, Event.recv [104, 10])]⟩ "boom" rfl

/-- C5: a `KeyboardInterrupt` during an in-time loop iteration aborts the
loop at once, whatever the rest of the trace holds; the run then ends as a
normal reported termination: the stop message is printed, no error output is
produced, and the port is still closed (exactly once). -/
theorem keyboard_interrupt_graceful_stop (env : Env) (louts : List Out)
    (s d t : Int) (rest : List (Int × Event)) :
    (t - s < d → pollLoop s d ((t, Event.keyboardInterrupt) :: rest)
        = some ([], ExitKind.interrupted))
    ∧ (env.openResult = Except.ok () →
       pollLoop env.startTime durationSeconds env.trace = some (louts, ExitKind.interrupted) →
       runScript env
         = some { outputs := headerOuts ++ louts ++ [Out.stoppedByUser, Out.serialClosed]
                  closeCount := 1 }) := by
  constructor
  · intro hlt
    exact pollLoop_interrupt s d t rest hlt
  · intro hopen hpl
    rw [runScript_ok env louts ExitKind.interrupted hopen hpl]
    simp [exitOuts]

/-- C5 witness: an interrupt at t = 3 aborts a trace that would have kept
polling until t = 99, and the run stops gracefully with the port closed. -/
theorem keyboard_interrupt_graceful_stop_witness :
    pollLoop 0 15 [(3, Event.keyboardInterrupt), (4, Event.recv [104, 10]), (99, Event.noData)]
      = some ([], ExitKind.interrupted)
    ∧ runScript ⟨Except.ok (), 0,
        [(0, Event.noData), (3, Event.keyboardInterrupt), (4, Event.recv [104, 10]), (99, Event.noData)]⟩
      = some { outputs := headerOuts ++ [] ++ [Out.stoppedByUser, Out.serialClosed]
               closeCount := 1 } := by
  have h := keyboard_interrupt_graceful_stop
    ⟨Except.ok (), 0,
      [(0, Event.noData), (3, Event.keyboardInterrupt), (4, Event.recv [104, 10]), (99, Event.noData)]⟩
    [] 0 15 3 [(4, Event.recv [104, 10]), (99, Event.noData)]
  exact ⟨h.1 (by decide), h.2 rfl rfl⟩

/-- C6: the polling loop follows exactly the specified algorithm: when the
elapsed time has reached the duration it exits at once without touching the
device; when data is available it reads one line, processes it and loops on
the rest; when no data is available it re-checks the condition immediately,
emitting nothing and performing no other action. -/
theorem poll_loop_algorithm (s d t : Int) (data : List Nat) (ev : Event)
    (rest : List (Int × Event)) :
    (d ≤ t - s → pollLoop s d ((t, ev) :: rest) = some ([], ExitKind.normal))
    ∧ (t - s < d → pollLoop s d ((t, Event.noData) :: rest) = pollLoop s d rest)
    ∧ (t - s < d → pollLoop s d ((t, Event.recv data) :: rest)
        = (pollLoop s d rest).map (fun p => (processLine data :: p.1, p.2))) :=
  ⟨fun h => pollLoop_exit s d t ev rest h,
   fun h => pollLoop_noData s d t rest h,
   fun h => pollLoop_recv s d t data rest h⟩

/-- C6 witness: the three loop equations at a concrete instant. -/
theorem poll_loop_algorithm_witness :
    pollLoop 0 15 [(15, Event.recv [104, 10])] = some ([], ExitKind.normal)
    ∧ pollLoop 0 15 ((3, Event.noData) :: [(16, Event.noData)])
        = pollLoop 0 15 [(16, Event.noData)]
    ∧ pollLoop 0 15 ((3, Event.recv [104, 10]) :: [(16, Event.noData)])
        = (pollLoop 0 15 [(16, Event.noData)]).map
            (fun p => (processLine [104, 10] :: p.1, p.2)) := by
  have h2 := poll_loop_algorithm 0 15 3 [104, 10] Event.noData [(16, Event.noData)]
  exact ⟨(poll_loop_algorithm 0 15 15 [104, 10] (Event.recv [104, 10]) []).1 (by decide),
         h2.2.1 (by decide), h2.2.2 (by decide)⟩

/-- C7: under the busy-poll timing model — consecutive condition checks are
separated by at most one read blocking at most `readTimeout` seconds, and
the first check happens no later than `start_time` — every condition check
of the loop, the exiting one included, happens no later than
`start_time + 15 + 1`: the loop never outlives the configured duration plus
one pending read's timeout. -/
theorem loop_time_bound (startTime : Int) (trace : List (Int × Event))
    (hspace : spacingOK readTimeout trace = true)
    (hhead : headLE startTime trace = true) :
    ∀ x ∈ reachedChecks startTime durationSeconds trace,
      x ≤ startTime + durationSeconds + readTimeout := by
  refine reachedChecks_bound startTime durationSeconds readTimeout (by decide) trace hspace ?_
  refine headLE_mono startTime (startTime + durationSeconds + readTimeout) ?_ trace hhead
  show startTime ≤ startTime + 15 + 1
  omega

/-- C7 witness: a trace with two reads and immediate re-checks keeps all
condition checks within the bound. -/
theorem loop_time_bound_witness : (2 : Int) ≤ 0 + durationSeconds + readTimeout :=
  loop_time_bound 0
    [(0, Event.recv [104, 10]), (1, Event.noData), (1, Event.recv [5, 10]), (2, Event.noData)]
    (by decide) (by decide) 2 (by decide)

/-- C8: the prints emitted by the loop body are exactly the lines read from
the connection, in the order they were received, each one read, transformed
and printed individually — no reordering and no buffering beyond the single
line being processed. -/
theorem lines_printed_in_order (env : Env) (louts : List Out) (ek : ExitKind)
    (hopen : env.openResult = Except.ok ())
    (hpl : pollLoop env.startTime durationSeconds env.trace = some (louts, ek)) :
    louts = (linesRead env).map processLine := by
  rw [linesRead_ok env hopen]
  exact pollLoop_outputs_eq env.startTime durationSeconds env.trace louts ek hpl

/-- C8 witness: two lines received in order come out in the same order, the
undecodable one raw. -/
theorem lines_printed_in_order_witness :
    [Out.text [104], Out.rawBytes [255, 10]]
      = (linesRead ⟨Except.ok (), 0,
          [(0, Event.recv [104, 10]), (1, Event.recv [255, 10]), (16, Event.noData)]⟩).map
          processLine :=
  lines_printed_in_order
    ⟨Except.ok (), 0,
      [(0, Event.recv [104, 10]), (1, Event.recv [255, 10]), (16, Event.noData)]⟩
    [Out.text [104], Out.rawBytes [255, 10]] ExitKind.normal rfl rfl

/-- C9: a `serial.SerialException` raised inside the loop after a successful
open aborts the loop and is caught by the same handler as an open failure,
which prints the `"Error opening serial port: "`-prefixed message; unlike a
true open failure, the `finally` block then finds the port open and closes
it (once), confirming with the closed message. -/
theorem serial_error_after_open_same_handler_and_close (env : Env)
    (louts : List Out) (m : String) (s d t : Int) (rest : List (Int × Event)) :
    (t - s < d → pollLoop s d ((t, Event.serialExc m) :: rest)
        = some ([], ExitKind.serialError m))
    ∧ (env.openResult = Except.ok () →
       pollLoop env.startTime durationSeconds env.trace
           = some (louts, ExitKind.serialError m) →
       runScript env
         = some { outputs := headerOuts ++ louts ++ [Out.errorOpening m, Out.serialClosed]
                  closeCount := 1 })
    ∧ renderOut (Out.errorOpening m) = "Error opening serial port: " ++ m := by
  refine ⟨fun hlt => pollLoop_serialExc s d t m rest hlt, ?_, rfl⟩
  intro hopen hpl
  rw [runScript_ok env louts (ExitKind.serialError m) hopen hpl]
  simp [exitOuts]

/-- C9 witness: a device error at t = 2 after one good line is reported with
the open-failure prefix and the port is still closed. -/
theorem serial_error_after_open_same_handler_and_close_witness :
    pollLoop 0 15 [(2, Event.serialExc "device reports readiness to read but returned no data")]
      = some ([], ExitKind.serialError "device reports readiness to read but returned no data")
    ∧ runScript ⟨Except.ok (), 0,
        [(0, Event.recv [104, 10]),
         (2, Event.serialExc "device reports readiness to read but returned no data")]⟩
      = some { outputs := headerOuts ++ [Out.text [104]]
                 ++ [Out.errorOpening "device reports readiness to read but returned no data",
                     Out.serialClosed]
               closeCount := 1 }
    ∧ renderOut (Out.errorOpening "device reports readiness to read but returned no data")
      = "Error opening serial port: "
          ++ "device reports readiness to read but returned no data" := by
  have h := serial_error_after_open_same_handler_and_close
    ⟨Except.ok (), 0,
      [(0, Event.recv [104, 10]),
       (2, Event.serialExc "device reports readiness to read but returned no data")]⟩
    [Out.text [104]] "device reports readiness to read but returned no data"
    0 15 2 []
  exact ⟨h.1 (by decide), h.2.1 rfl rfl, h.2.2⟩

end MonitorSerial
